import Mathlib

/-!
# Verification of the frontend real-time state-synchronization and
# audio-visualization subsystem

This development embeds, in Lean, the client-side logic of the voice
conversation template:

* the store handlers of `frontend/src/App.tsx` (`handleServerMessage`,
  `handleUserTranscript`, `handleBotTtsText`, the speaking-flag handlers,
  `handleConnected` / `handleDisconnected`, the 5-second safety timeout and
  `handleConnect`), and
* the derived state of `frontend/src/components/ShowcaseLayout.tsx`
  (transcript history, the idle/listening/thinking conversation state, the
  reset-on-ready effect and the audio-analysis bar computation).

React semantics are embedded explicitly: each `useEffect` of the layout
component becomes an effect body plus a stored snapshot of its dependency
array; after an event handler runs, effect passes are applied (an effect
body fires exactly when its current dependencies differ from the snapshot
of its previous run) until a fixed bound that dominates the cascade depth.
Effect bodies read component state from the render (`r`) and refs plus
functional-updater state from the pending state (`p`), mirroring React's
closure-vs-ref distinction.
-/

/-- Speaker tag of a transcript entry (`'user' | 'bot'` in the source). -/
inductive Speaker where
  | user : Speaker
  | bot : Speaker
deriving DecidableEq, Repr

/-- `TranscriptMessage` of `ShowcaseLayout.tsx`. -/
structure TranscriptMessage where
  speaker : Speaker
  text : String
  timestamp : Nat
deriving DecidableEq, Repr

/-- The three-valued conversation state of `ShowcaseLayout.tsx`
(`'idle' | 'listening' | 'thinking'`). -/
inductive InteractionMode where
  | idle : InteractionMode
  | listening : InteractionMode
  | thinking : InteractionMode
deriving DecidableEq, Repr

/-- Transport channel states of the Pipecat client that the frontend
branches on (`disconnected`, `connecting`, `ready`; `closing` appears in
the spec's ChannelState enum). -/
inductive TransportState where
  | disconnected : TransportState
  | connecting : TransportState
  | ready : TransportState
  | closing : TransportState
deriving DecidableEq, Repr

/-- `CourseState` of `App.tsx`: the client-side conversation state snapshot.
`responses` is the JS object `Record<string, {interested: boolean}>`,
embedded as an association list. -/
structure CourseState where
  all_topics : List String
  discussed_topics : List String
  responses : List (String × Bool)
  remaining_topics : List String
  current_topics : List String
  current_node : String
  progress : String
deriving DecidableEq, Repr

/-- Initial `CourseState` (the `useState` initializer in `App.tsx`). -/
def initialCourseState : CourseState :=
  { all_topics := []
  , discussed_topics := []
  , responses := []
  , remaining_topics := []
  , current_topics := []
  , current_node := "initial"
  , progress := "0/3" }

/-- Payload of a `conversation_state_update` server message: every field may
be absent (`none` models a missing/undefined field). -/
structure StatePayload where
  all_topics : Option (List String)
  discussed_topics : Option (List String)
  responses : Option (List (String × Bool))
  remaining_topics : Option (List String)
  current_topics : Option (List String)
  current_node : Option String
  progress : Option String
deriving DecidableEq, Repr

/-- JS `String.prototype.trim`: strip leading and trailing whitespace
(executable character-list version). -/
def jsTrim (s : String) : String :=
  ⟨((s.data.dropWhile Char.isWhitespace).reverse.dropWhile
      Char.isWhitespace).reverse⟩

/-- JS `x || d` for a string-valued field: absent and `""` (both falsy)
fall back to the default. -/
def strOr (o : Option String) (d : String) : String :=
  match o with
  | none => d
  | some s => if s = "" then d else s

/-- The wholesale replacement performed by `handleServerMessage` in
`App.tsx` (`data.all_topics || []`, ..., `data.current_node || 'initial'`,
`data.progress || '0/3'`). An empty array is truthy in JS, so list fields
only default when absent; string fields also default when empty. -/
def decodeStateUpdate (p : StatePayload) : CourseState :=
  { all_topics := p.all_topics.getD []
  , discussed_topics := p.discussed_topics.getD []
  , responses := p.responses.getD []
  , remaining_topics := p.remaining_topics.getD []
  , current_topics := p.current_topics.getD []
  , current_node := strOr p.current_node "initial"
  , progress := strOr p.progress "0/3" }

/-- Combined client state: the `App.tsx` store fields, the
`ShowcaseLayout.tsx` component state and refs, the transport state, and the
React dependency snapshots (`d…`) of the layout effects. -/
structure ClientS where
  -- App.tsx state
  courseState : CourseState
  transcriptsUser : String
  transcriptsBot : String
  isBotSpeaking : Bool
  streamingUserText : String
  streamingUserTextRef : String
  isUserSpeaking : Bool
  -- ShowcaseLayout.tsx state and refs
  transcriptHistory : List TranscriptMessage
  conversationState : InteractionMode
  prevIsUserSpeaking : Bool
  lastProcessedTts : String
  -- transport
  transport : TransportState
  -- effect dependency snapshots (React bookkeeping)
  d1 : Bool                                 -- [isUserSpeaking]
  d2h : List TranscriptMessage              -- [transcriptHistory, conversationState]
  d2c : InteractionMode
  d3u : String                              -- [transcripts.user, isUserSpeaking]
  d3s : Bool
  d4 : String                               -- [transcripts.bot]
  d7 : TransportState                       -- [transportState]
deriving DecidableEq, Repr

/-- The client state right after mount: `useState` initializers, refs at
their initial values, and effect snapshots equal to the mount-render
dependencies (the mount run of every effect is a no-op on this state). -/
def initClientS : ClientS :=
  { courseState := initialCourseState
  , transcriptsUser := ""
  , transcriptsBot := ""
  , isBotSpeaking := false
  , streamingUserText := ""
  , streamingUserTextRef := ""
  , isUserSpeaking := false
  , transcriptHistory := []
  , conversationState := .idle
  , prevIsUserSpeaking := false
  , lastProcessedTts := ""
  , transport := .disconnected
  , d1 := false
  , d2h := []
  , d2c := .idle
  , d3u := ""
  , d3s := false
  , d4 := ""
  , d7 := .disconnected }

/-- `handleServerMessage` (`App.tsx`): on a `conversation_state_update`
message, replace `courseState` wholesale from the payload. -/
def handleServerMessage (s : ClientS) (p : StatePayload) : ClientS :=
  { s with courseState := decodeStateUpdate p }

/-- `handleUserTranscript` (`App.tsx`): `isFinal = data?.final !== false`;
nothing happens unless `data?.text` is truthy; a non-final transcript
updates the streaming text and marks speaking, a final one stores the text
in `transcripts.user` and clears the streaming state. -/
def handleUserTranscript (s : ClientS) (text : Option String)
    (finalFlag : Option Bool) : ClientS :=
  let isFinal : Bool := finalFlag ≠ some false
  match text with
  | none => s
  | some t =>
    if t = "" then s
    else if isFinal then
      { s with transcriptsUser := t
             , streamingUserText := ""
             , streamingUserTextRef := ""
             , isUserSpeaking := false }
    else
      { s with streamingUserText := t
             , streamingUserTextRef := t
             , isUserSpeaking := true }

/-- `handleBotTtsText` (`App.tsx`): store the text when truthy and
nonblank. -/
def handleBotTtsText (s : ClientS) (text : Option String) : ClientS :=
  match text with
  | none => s
  | some t =>
    if t ≠ "" ∧ jsTrim t ≠ "" then { s with transcriptsBot := t } else s

/-- `handleConnected` (`App.tsx`): fresh-session reset of transcripts,
streaming text and both speaking flags (the streaming ref is not touched
by this handler in the source). -/
def handleConnected (s : ClientS) : ClientS :=
  { s with transcriptsUser := ""
         , transcriptsBot := ""
         , streamingUserText := ""
         , isUserSpeaking := false
         , isBotSpeaking := false }

/-- `handleDisconnected` (`App.tsx`). -/
def handleDisconnected (s : ClientS) : ClientS :=
  { s with streamingUserText := ""
         , isUserSpeaking := false
         , isBotSpeaking := false }

/-- Duration of the stuck-speaking safety timeout in `App.tsx`
(`setTimeout(..., 5000)`). -/
def speakingTimeoutMs : Nat := 5000

/-- Firing of the safety timeout of `App.tsx`: the timer only exists while
`isUserSpeaking` is set (the effect clears it otherwise), so the fire is a
no-op when the flag is down; when it fires, a nonempty last-seen partial
text is promoted to `transcripts.user`, and the streaming state and the
speaking flag are cleared. -/
def safetyTimeoutFire (s : ClientS) : ClientS :=
  if s.isUserSpeaking then
    let s1 :=
      if s.streamingUserTextRef ≠ "" then
        { s with transcriptsUser := s.streamingUserTextRef }
      else s
    { s1 with streamingUserText := ""
            , streamingUserTextRef := ""
            , isUserSpeaking := false }
  else s

/-- Inbound events of the client: the Pipecat callbacks wired in
`App.tsx`, the safety-timeout fire, and transport state changes. -/
inductive ClientEvent where
  | serverMessage (p : StatePayload)
  | userTranscriptEv (text : Option String) (finalFlag : Option Bool)
  | botTtsTextEv (text : Option String)
  | botStartedSpeakingEv
  | botStoppedSpeakingEv
  | userStartedSpeakingEv
  | connectedEv
  | disconnectedEv
  | speakingTimeoutEv
  | transportChangeEv (t : TransportState)
deriving DecidableEq, Repr

/-- Dispatch of one inbound event to its `App.tsx` handler (one batched
React update). -/
def applyEvent (s : ClientS) (e : ClientEvent) : ClientS :=
  match e with
  | .serverMessage p => handleServerMessage s p
  | .userTranscriptEv t f => handleUserTranscript s t f
  | .botTtsTextEv t => handleBotTtsText s t
  | .botStartedSpeakingEv => { s with isBotSpeaking := true }
  | .botStoppedSpeakingEv => { s with isBotSpeaking := false }
  | .userStartedSpeakingEv => { s with isUserSpeaking := true }
  | .connectedEv => handleConnected s
  | .disconnectedEv => handleDisconnected s
  | .speakingTimeoutEv => safetyTimeoutFire s
  | .transportChangeEv t => { s with transport := t }

/-- Appending a final user transcript to the history
(`ShowcaseLayout.tsx`, "Add final user transcripts to history"): look for
the most recent user entry; append unless it carries the same text. -/
def appendUserMsg (h : List TranscriptMessage) (t : String) (ts : Nat) :
    List TranscriptMessage :=
  match h.reverse.find? (fun m => m.speaker == Speaker.user) with
  | none => h ++ [⟨Speaker.user, t, ts⟩]
  | some m => if m.text = t then h else h ++ [⟨Speaker.user, t, ts⟩]

/-- Appending a bot transcript to the history (`ShowcaseLayout.tsx`,
"Add bot transcripts to history"): skip when the most recent bot entry
carries the same text. -/
def appendBotMsg (h : List TranscriptMessage) (t : String) (ts : Nat) :
    List TranscriptMessage :=
  match h.reverse.find? (fun m => m.speaker == Speaker.bot) with
  | none => h ++ [⟨Speaker.bot, t, ts⟩]
  | some m => if m.text = t then h else h ++ [⟨Speaker.bot, t, ts⟩]

/-- Effect body 1 (`ShowcaseLayout.tsx` lines 91-98): edge detection on
`isUserSpeaking` against the `prevIsUserSpeaking` ref; a rising edge sets
`listening`, a falling edge sets `thinking`; the ref then tracks the
rendered flag. `r` is the render state, `p` the pending state. -/
def effect1Body (r p : ClientS) : ClientS :=
  let p1 :=
    if r.isUserSpeaking ∧ p.prevIsUserSpeaking = false then
      { p with conversationState := .listening }
    else if p.prevIsUserSpeaking ∧ r.isUserSpeaking = false then
      { p with conversationState := .thinking }
    else p
  { p1 with prevIsUserSpeaking := r.isUserSpeaking }

/-- Effect body 2 (`ShowcaseLayout.tsx` lines 101-108): while `thinking`,
once the last history entry is a bot entry, fall back to `idle`. -/
def effect2Body (r p : ClientS) : ClientS :=
  if r.conversationState = .thinking ∧ 0 < r.transcriptHistory.length then
    match r.transcriptHistory.getLast? with
    | some m => if m.speaker = .bot then { p with conversationState := .idle } else p
    | none => p
  else p

/-- Effect body 3 (`ShowcaseLayout.tsx` lines 111-121): when
`transcripts.user` is truthy, nonblank and the user is not speaking,
append it to the history via the functional updater (which reads the
pending history). -/
def effect3Body (r p : ClientS) (ts : Nat) : ClientS :=
  if r.transcriptsUser ≠ "" ∧ jsTrim r.transcriptsUser ≠ "" ∧
      r.isUserSpeaking = false then
    { p with transcriptHistory := appendUserMsg p.transcriptHistory r.transcriptsUser ts }
  else p

/-- Effect body 4 (`ShowcaseLayout.tsx` lines 125-134): when
`transcripts.bot` is truthy, nonblank and differs from the
`lastProcessedTts` ref, record it in the ref and append it to the pending
history. -/
def effect4Body (r p : ClientS) (ts : Nat) : ClientS :=
  if r.transcriptsBot ≠ "" ∧ jsTrim r.transcriptsBot ≠ "" ∧
      r.transcriptsBot ≠ p.lastProcessedTts then
    { p with lastProcessedTts := r.transcriptsBot
           , transcriptHistory := appendBotMsg p.transcriptHistory r.transcriptsBot ts }
  else p

/-- Effect body 7 (`ShowcaseLayout.tsx` lines 270-275, "Reset history on
new connection"): on the `ready` transport state, clear the history and
the TTS dedup ref. -/
def effect7Body (r p : ClientS) : ClientS :=
  if r.transport = .ready then
    { p with transcriptHistory := [], lastProcessedTts := "" }
  else p

/-- React run of effect 1: fires when its dependency `[isUserSpeaking]`
differs from the snapshot of its previous run. -/
def runEffect1 (r p : ClientS) : ClientS :=
  if r.isUserSpeaking = r.d1 then p
  else { effect1Body r p with d1 := r.isUserSpeaking }

/-- React run of effect 2 (deps `[transcriptHistory, conversationState]`). -/
def runEffect2 (r p : ClientS) : ClientS :=
  if r.transcriptHistory = r.d2h ∧ r.conversationState = r.d2c then p
  else { effect2Body r p with d2h := r.transcriptHistory, d2c := r.conversationState }

/-- React run of effect 3 (deps `[transcripts.user, isUserSpeaking]`). -/
def runEffect3 (r p : ClientS) (ts : Nat) : ClientS :=
  if r.transcriptsUser = r.d3u ∧ r.isUserSpeaking = r.d3s then p
  else { effect3Body r p ts with d3u := r.transcriptsUser, d3s := r.isUserSpeaking }

/-- React run of effect 4 (deps `[transcripts.bot]`). -/
def runEffect4 (r p : ClientS) (ts : Nat) : ClientS :=
  if r.transcriptsBot = r.d4 then p
  else { effect4Body r p ts with d4 := r.transcriptsBot }

/-- React run of effect 7 (deps `[transportState]`). -/
def runEffect7 (r p : ClientS) : ClientS :=
  if r.transport = r.d7 then p
  else { effect7Body r p with d7 := r.transport }

/-- One commit pass: the layout effects run in declaration order; every
body reads the render state `s` (and current refs from the pending state),
and the resulting pending state is the next render. -/
def runPass (s : ClientS) (ts : Nat) : ClientS :=
  runEffect7 s (runEffect4 s (runEffect3 s (runEffect2 s (runEffect1 s s)) ts) ts)

/-- Bounded effect cascade: render/commit passes repeated `n` times. Every
pass beyond the convergence point of the cascade (at most four passes for
this effect set) leaves the state unchanged. -/
def stabilizeLoop : Nat → ClientS → Nat → ClientS
  | 0, s, _ => s
  | n + 1, s, ts => stabilizeLoop n (runPass s ts) ts

/-- Depth bound of the effect cascade (safe upper bound). -/
def cascadeFuel : Nat := 8

/-- Processing of one inbound event at wall-clock time `ts` (used for
`Date.now()` in the history appends): the `App.tsx` handler runs as one
batched update, then the layout effects cascade to quiescence. -/
def stepEvent (s : ClientS) (e : ClientEvent) (ts : Nat) : ClientS :=
  stabilizeLoop cascadeFuel (applyEvent s e) ts

/-- Processing of a timed event sequence. -/
def runEvents (s : ClientS) : List (ClientEvent × Nat) → ClientS
  | [] => s
  | e :: rest => runEvents (stepEvent s e.1 e.2) rest

/-- A quiescent client state: every effect's dependency snapshot matches
its current dependencies, and the `prevIsUserSpeaking` ref tracks the
speaking flag. Every state reached between events satisfies this. -/
def Consistent (s : ClientS) : Prop :=
  s.d1 = s.isUserSpeaking ∧ s.d2h = s.transcriptHistory ∧
  s.d2c = s.conversationState ∧ s.d3u = s.transcriptsUser ∧
  s.d3s = s.isUserSpeaking ∧ s.d4 = s.transcriptsBot ∧
  s.d7 = s.transport ∧ s.prevIsUserSpeaking = s.isUserSpeaking

instance (s : ClientS) : Decidable (Consistent s) := by
  unfold Consistent; infer_instance

/-!
## Audio analysis (`ShowcaseLayout.tsx`, the `animate` callbacks)

Both the bot-audio and the mic analysis loop run the same bar computation
on each animation tick: read a window of `fftSize = 256` byte samples,
split it into 32 segments of `floor(length/32)` samples, and for each
segment push `max(5, min(95, rms * 400))` where `rms` is the root mean
square of `|(sample - 128) / 128|` over the segment. Sample bytes are
embedded as naturals, the float arithmetic as exact real arithmetic.
-/

namespace AudioBars

/-- `analyser.fftSize` in both effects. -/
def fftSize : Nat := 256

/-- Number of bars pushed per frame (the loop bound `32`). -/
def numBars : Nat := 32

/-- `segmentSize = Math.floor(dataArray.length / 32)`. -/
def segmentSize (data : List Nat) : Nat := data.length / 32

/-- `Math.abs((dataArray[idx] - 128) / 128)` for one sample (reads as `0`
out of bounds; all indices used are in bounds for a 256-sample window). -/
noncomputable def sampleVal (data : List Nat) (idx : Nat) : ℝ :=
  |((data.getD idx 0 : ℝ) - 128) / 128|

/-- The inner loop accumulator: `sum += val * val` over one segment. -/
noncomputable def segmentSumSq (data : List Nat) (i : Nat) : ℝ :=
  ∑ j in Finset.range (segmentSize data),
    sampleVal data (i * segmentSize data + j) ^ 2

/-- `rms = Math.sqrt(sum / segmentSize)`. -/
noncomputable def segmentRms (data : List Nat) (i : Nat) : ℝ :=
  Real.sqrt (segmentSumSq data i / (segmentSize data : ℝ))

/-- `Math.max(5, Math.min(95, rms * 400))`: the value pushed for bar `i`. -/
noncomputable def barValue (data : List Nat) (i : Nat) : ℝ :=
  max 5 (min 95 (segmentRms data i * 400))

/-- One frame of the `animate` loop: the `bars` array pushed into
`setMicBars` / `setBotBars`. -/
noncomputable def computeBars (data : List Nat) : List ℝ :=
  (List.range numBars).map (barValue data)

end AudioBars

/-!
## Connection lifecycle (`App.tsx`, `handleConnect`)

`handleConnect` is embedded as a function of the starting transport state
and an oracle describing the outcomes of the transport primitives
(`client.disconnect()`, `client.startBotAndConnect(...)`). It returns the
ordered list of transport actions performed, the final transport state,
and whether the returned promise rejects (surfacing the failure to the
caller). Disconnect success moves the transport to `disconnected`;
disconnect failure leaves it unchanged.
-/

/-- Outcomes of the transport primitives during one `handleConnect` run. -/
structure ConnectOracle where
  disconnect1Ok : Bool
  startBotOk : Bool
  stateAfterStartBot : TransportState
  disconnect2Ok : Bool
deriving DecidableEq, Repr

/-- Observable actions of `handleConnect`. -/
inductive ConnectAction where
  | disconnectCall : ConnectAction
  | settleDelay : ConnectAction
  | resetTranscripts : ConnectAction
  | startBotCall : ConnectAction
deriving DecidableEq, Repr

/-- Effect of one `client.disconnect()` attempt on the transport state. -/
def disconnectEffect (ok : Bool) (st : TransportState) : TransportState :=
  if ok then .disconnected else st

/-- `handleConnect` (`App.tsx` lines 141-165). The inner disconnect
failures are caught and logged; the outer `catch` swallows the connect
failure (it never rethrows), recovering only by forcing a disconnect when
the transport ended `ready` or `connecting`. Result: performed actions,
final transport state, and whether the call rejects. -/
def handleConnect (st0 : TransportState) (o : ConnectOracle) :
    List ConnectAction × TransportState × Bool :=
  let pre :=
    if st0 ≠ .disconnected then
      ([ConnectAction.disconnectCall, ConnectAction.settleDelay],
        disconnectEffect o.disconnect1Ok st0)
    else ([], st0)
  let acts := pre.1 ++ [ConnectAction.resetTranscripts, ConnectAction.startBotCall]
  if o.startBotOk then
    (acts, .ready, false)
  else
    let stf := o.stateAfterStartBot
    if stf = .ready ∨ stf = .connecting then
      (acts ++ [ConnectAction.disconnectCall],
        disconnectEffect o.disconnect2Ok stf, false)
    else
      (acts, stf, false)

/-!
## Visualization lifecycle (`ShowcaseLayout.tsx`, audio effects 5 and 6)

The bot-audio effect builds its analyser synchronously and starts the
animation loop; its cleanup cancels the pending animation frame. The mic
effect first awaits `navigator.mediaDevices.getUserMedia(...)` and starts
the loop inside the promise callback; its cleanup cancels the pending
frame and closes the context, but nothing cancels the in-flight promise.
The models below count bar-state mutations (`setBotBars` / `setMicBars`
calls) that happen after the effect cleanup ran.
-/

/-- Lifecycle state of the mic analyzer effect. -/
structure MicAnalyzer where
  pendingStream : Bool
  loopScheduled : Bool
  disposed : Bool
  mutations : Nat
  mutationsAfterDispose : Nat
deriving DecidableEq, Repr

/-- Mic effect right after its body ran: `getUserMedia` is in flight, no
animation frame is scheduled yet. -/
def micStart : MicAnalyzer :=
  { pendingStream := true
  , loopScheduled := false
  , disposed := false
  , mutations := 0
  , mutationsAfterDispose := 0 }

/-- Scheduler events for the mic analyzer: the `getUserMedia` promise
resolving, an animation frame firing, and the effect cleanup. -/
inductive MicEv where
  | resolveStream : MicEv
  | frame : MicEv
  | dispose : MicEv
deriving DecidableEq, Repr

/-- One scheduler step of the mic analyzer. The promise callback runs
unconditionally when the stream resolves (nothing checks for disposal): it
calls `animate()` once, which sets the bars and schedules the next frame.
A frame runs `animate` when scheduled. The cleanup cancels the currently
scheduled frame (`cancelAnimationFrame(animationId)`) and closes the
context, but cannot cancel the pending promise. -/
def micStep (a : MicAnalyzer) : MicEv → MicAnalyzer
  | .resolveStream =>
    if a.pendingStream then
      { a with pendingStream := false
             , loopScheduled := true
             , mutations := a.mutations + 1
             , mutationsAfterDispose :=
                 a.mutationsAfterDispose + (if a.disposed then 1 else 0) }
    else a
  | .frame =>
    if a.loopScheduled then
      { a with mutations := a.mutations + 1
             , mutationsAfterDispose :=
                 a.mutationsAfterDispose + (if a.disposed then 1 else 0) }
    else a
  | .dispose => { a with disposed := true, loopScheduled := false }

/-- Scheduler run for the mic analyzer. -/
def micRun (a : MicAnalyzer) : List MicEv → MicAnalyzer
  | [] => a
  | e :: rest => micRun (micStep a e) rest

/-- Lifecycle state of the bot-audio analyzer effect: its body is fully
synchronous, so there is no pending-stream phase. -/
structure BotAnalyzer where
  loopScheduled : Bool
  disposed : Bool
  mutations : Nat
  mutationsAfterDispose : Nat
deriving DecidableEq, Repr

/-- Bot effect right after its body ran: `animate()` was already called
once synchronously (one mutation) and the next frame is scheduled. -/
def botStart : BotAnalyzer :=
  { loopScheduled := true
  , disposed := false
  , mutations := 1
  , mutationsAfterDispose := 0 }

/-- Scheduler events for the bot analyzer. -/
inductive BotEv where
  | frame : BotEv
  | dispose : BotEv
deriving DecidableEq, Repr

/-- One scheduler step of the bot analyzer: a frame runs `animate` when
scheduled; the cleanup cancels the scheduled frame, disconnects the source
and closes the context. -/
def botStep (a : BotAnalyzer) : BotEv → BotAnalyzer
  | .frame =>
    if a.loopScheduled then
      { a with mutations := a.mutations + 1
             , mutationsAfterDispose :=
                 a.mutationsAfterDispose + (if a.disposed then 1 else 0) }
    else a
  | .dispose => { a with disposed := true, loopScheduled := false }

/-- Scheduler run for the bot analyzer. -/
def botRun (a : BotAnalyzer) : List BotEv → BotAnalyzer
  | [] => a
  | e :: rest => botRun (botStep a e) rest

/-!
## Helper notions and lemmas
-/

/-- No two consecutive history entries share both speaker and text
(the adjacency de-duplication invariant of the transcript history). -/
def noAdjDup : List TranscriptMessage → Bool
  | a :: b :: t => (a.speaker != b.speaker || a.text != b.text) && noAdjDup (b :: t)
  | _ => true

lemma noAdjDup_append (h : List TranscriptMessage) (m : TranscriptMessage)
    (hh : noAdjDup h = true)
    (hl : ∀ L, h.getLast? = some L → L.speaker = m.speaker → L.text ≠ m.text) :
    noAdjDup (h ++ [m]) = true := by
  induction h with
  | nil => simp [noAdjDup]
  | cons a t ih =>
    cases t with
    | nil =>
      have hm := hl a rfl
      simp only [List.cons_append, List.nil_append, noAdjDup,
        Bool.and_eq_true, Bool.or_eq_true, bne_iff_ne, ne_eq]
      by_cases hs : a.speaker = m.speaker
      · exact ⟨Or.inr (hm hs), trivial⟩
      · exact ⟨Or.inl hs, trivial⟩
    | cons b t2 =>
      simp only [noAdjDup, Bool.and_eq_true] at hh
      have hl' : ∀ L, (b :: t2).getLast? = some L →
          L.speaker = m.speaker → L.text ≠ m.text := by
        intro L hL
        exact hl L (by rw [List.getLast?_cons_cons]; exact hL)
      have htail := ih hh.2 hl'
      simp only [List.cons_append] at htail ⊢
      simp only [noAdjDup, Bool.and_eq_true]
      exact ⟨hh.1, htail⟩

lemma find?_reverse_of_getLast (h : List TranscriptMessage)
    (p : TranscriptMessage → Bool) (L : TranscriptMessage)
    (hL : h.getLast? = some L) (hp : p L = true) :
    h.reverse.find? p = some L := by
  have hh : h.reverse.head? = some L := by
    rw [List.head?_reverse]; exact hL
  cases hr : h.reverse with
  | nil => rw [hr] at hh; simp at hh
  | cons a t =>
    rw [hr] at hh
    simp only [List.head?_cons, Option.some.injEq] at hh
    subst hh
    exact List.find?_cons_of_pos _ hp

lemma find?_reverse_none_getLast (h : List TranscriptMessage)
    (p : TranscriptMessage → Bool) (L : TranscriptMessage)
    (hn : h.reverse.find? p = none) (hL : h.getLast? = some L) :
    p L = false := by
  have hh : h.reverse.head? = some L := by
    rw [List.head?_reverse]; exact hL
  cases hr : h.reverse with
  | nil => rw [hr] at hh; simp at hh
  | cons a t =>
    rw [hr] at hh hn
    simp only [List.head?_cons, Option.some.injEq] at hh
    by_cases hp : p L = true
    · rw [List.find?_cons_of_pos _ (by rw [hh]; exact hp)] at hn
      simp at hn
    · simpa using hp

lemma appendUserMsg_noAdjDup (h : List TranscriptMessage) (t : String)
    (ts : Nat) (hh : noAdjDup h = true) :
    noAdjDup (appendUserMsg h t ts) = true := by
  unfold appendUserMsg
  cases hf : h.reverse.find? (fun m => m.speaker == Speaker.user) with
  | none =>
    apply noAdjDup_append h _ hh
    intro L hL hsp
    have := find?_reverse_none_getLast h _ L hf hL
    simp only [beq_eq_false_iff_ne, ne_eq] at this
    exact absurd hsp this
  | some m =>
    show noAdjDup (if m.text = t then h
      else h ++ [⟨Speaker.user, t, ts⟩]) = true
    by_cases hm : m.text = t
    · rw [if_pos hm]; exact hh
    · rw [if_neg hm]
      apply noAdjDup_append h _ hh
      intro L hL hsp
      have hfind := find?_reverse_of_getLast h
        (fun m => m.speaker == Speaker.user) L hL (by simp [hsp])
      rw [hf] at hfind
      have hLm : m = L := by injection hfind
      subst hLm
      simpa using fun he => hm he

lemma appendBotMsg_noAdjDup (h : List TranscriptMessage) (t : String)
    (ts : Nat) (hh : noAdjDup h = true) :
    noAdjDup (appendBotMsg h t ts) = true := by
  unfold appendBotMsg
  cases hf : h.reverse.find? (fun m => m.speaker == Speaker.bot) with
  | none =>
    apply noAdjDup_append h _ hh
    intro L hL hsp
    have := find?_reverse_none_getLast h _ L hf hL
    simp only [beq_eq_false_iff_ne, ne_eq] at this
    exact absurd hsp this
  | some m =>
    show noAdjDup (if m.text = t then h
      else h ++ [⟨Speaker.bot, t, ts⟩]) = true
    by_cases hm : m.text = t
    · rw [if_pos hm]; exact hh
    · rw [if_neg hm]
      apply noAdjDup_append h _ hh
      intro L hL hsp
      have hfind := find?_reverse_of_getLast h
        (fun m => m.speaker == Speaker.bot) L hL (by simp [hsp])
      rw [hf] at hfind
      have hLm : m = L := by injection hfind
      subst hLm
      simpa using fun he => hm he

lemma effect1Body_history (r p : ClientS) :
    (effect1Body r p).transcriptHistory = p.transcriptHistory := by
  unfold effect1Body
  split_ifs <;> rfl

lemma effect2Body_history (r p : ClientS) :
    (effect2Body r p).transcriptHistory = p.transcriptHistory := by
  unfold effect2Body
  split
  · split <;> first | (split <;> rfl) | rfl
  · rfl

lemma runEffect1_history (r p : ClientS) :
    (runEffect1 r p).transcriptHistory = p.transcriptHistory := by
  unfold runEffect1
  split
  · rfl
  · show (effect1Body r p).transcriptHistory = p.transcriptHistory
    exact effect1Body_history r p

lemma runEffect2_history (r p : ClientS) :
    (runEffect2 r p).transcriptHistory = p.transcriptHistory := by
  unfold runEffect2
  split
  · rfl
  · show (effect2Body r p).transcriptHistory = p.transcriptHistory
    exact effect2Body_history r p

lemma runEffect3_noAdjDup (r p : ClientS) (ts : Nat)
    (hh : noAdjDup p.transcriptHistory = true) :
    noAdjDup (runEffect3 r p ts).transcriptHistory = true := by
  unfold runEffect3 effect3Body
  split
  · exact hh
  · split
    · exact appendUserMsg_noAdjDup _ _ _ hh
    · exact hh

lemma runEffect4_noAdjDup (r p : ClientS) (ts : Nat)
    (hh : noAdjDup p.transcriptHistory = true) :
    noAdjDup (runEffect4 r p ts).transcriptHistory = true := by
  unfold runEffect4 effect4Body
  split
  · exact hh
  · split
    · exact appendBotMsg_noAdjDup _ _ _ hh
    · exact hh

lemma runEffect7_noAdjDup (r p : ClientS)
    (hh : noAdjDup p.transcriptHistory = true) :
    noAdjDup (runEffect7 r p).transcriptHistory = true := by
  unfold runEffect7 effect7Body
  split
  · exact hh
  · split
    · rfl
    · exact hh

lemma runPass_noAdjDup (s : ClientS) (ts : Nat)
    (hh : noAdjDup s.transcriptHistory = true) :
    noAdjDup (runPass s ts).transcriptHistory = true := by
  unfold runPass
  apply runEffect7_noAdjDup
  apply runEffect4_noAdjDup
  apply runEffect3_noAdjDup
  rw [runEffect2_history, runEffect1_history]
  exact hh

lemma stabilizeLoop_noAdjDup (n : Nat) (s : ClientS) (ts : Nat)
    (hh : noAdjDup s.transcriptHistory = true) :
    noAdjDup (stabilizeLoop n s ts).transcriptHistory = true := by
  induction n generalizing s with
  | zero => exact hh
  | succ k ih => exact ih _ (runPass_noAdjDup s ts hh)

lemma applyEvent_history (s : ClientS) (e : ClientEvent) :
    (applyEvent s e).transcriptHistory = s.transcriptHistory := by
  cases e with
  | serverMessage p => rfl
  | userTranscriptEv t f =>
    show (handleUserTranscript s t f).transcriptHistory = _
    unfold handleUserTranscript
    cases t with
    | none => rfl
    | some t0 => dsimp only; split_ifs <;> rfl
  | botTtsTextEv t =>
    show (handleBotTtsText s t).transcriptHistory = _
    unfold handleBotTtsText
    cases t with
    | none => rfl
    | some t0 => dsimp only; split_ifs <;> rfl
  | speakingTimeoutEv =>
    show (safetyTimeoutFire s).transcriptHistory = _
    unfold safetyTimeoutFire
    split_ifs <;> rfl
  | _ => rfl

lemma stepEvent_noAdjDup (s : ClientS) (e : ClientEvent) (ts : Nat)
    (hh : noAdjDup s.transcriptHistory = true) :
    noAdjDup (stepEvent s e ts).transcriptHistory = true := by
  unfold stepEvent
  apply stabilizeLoop_noAdjDup
  rw [applyEvent_history]
  exact hh

lemma runEvents_noAdjDup (evs : List (ClientEvent × Nat)) (s : ClientS)
    (hh : noAdjDup s.transcriptHistory = true) :
    noAdjDup (runEvents s evs).transcriptHistory = true := by
  induction evs generalizing s with
  | nil => exact hh
  | cons e rest ih =>
    simp only [runEvents]
    exact ih _ (stepEvent_noAdjDup s e.1 e.2 hh)

/-- Projection of `ClientS` onto the `App.tsx` store fields plus the
transport state: everything the layout effects never mutate. -/
def appView (s : ClientS) :
    CourseState × String × String × Bool × String × String × Bool ×
      TransportState :=
  (s.courseState, s.transcriptsUser, s.transcriptsBot, s.isBotSpeaking,
    s.streamingUserText, s.streamingUserTextRef, s.isUserSpeaking,
    s.transport)

lemma runEffect1_appView (r p : ClientS) :
    appView (runEffect1 r p) = appView p := by
  unfold runEffect1 effect1Body
  split_ifs <;> rfl

lemma runEffect2_appView (r p : ClientS) :
    appView (runEffect2 r p) = appView p := by
  unfold runEffect2 effect2Body
  split
  · rfl
  · split
    · split
      · split <;> rfl
      · rfl
    · rfl

lemma runEffect3_appView (r p : ClientS) (ts : Nat) :
    appView (runEffect3 r p ts) = appView p := by
  unfold runEffect3 effect3Body
  split_ifs <;> rfl

lemma runEffect4_appView (r p : ClientS) (ts : Nat) :
    appView (runEffect4 r p ts) = appView p := by
  unfold runEffect4 effect4Body
  split_ifs <;> rfl

lemma runEffect7_appView (r p : ClientS) :
    appView (runEffect7 r p) = appView p := by
  unfold runEffect7 effect7Body
  split_ifs <;> rfl

lemma runPass_appView (s : ClientS) (ts : Nat) :
    appView (runPass s ts) = appView s := by
  unfold runPass
  rw [runEffect7_appView, runEffect4_appView, runEffect3_appView,
    runEffect2_appView, runEffect1_appView]

lemma stabilizeLoop_appView (n : Nat) (s : ClientS) (ts : Nat) :
    appView (stabilizeLoop n s ts) = appView s := by
  induction n generalizing s with
  | zero => rfl
  | succ k ih => rw [stabilizeLoop, ih, runPass_appView]

lemma stepEvent_appView (s : ClientS) (e : ClientEvent) (ts : Nat) :
    appView (stepEvent s e ts) = appView (applyEvent s e) := by
  unfold stepEvent
  exact stabilizeLoop_appView _ _ _

lemma runEffect1_skip (r p : ClientS) (h : r.isUserSpeaking = r.d1) :
    runEffect1 r p = p := if_pos h

lemma runEffect2_skip (r p : ClientS)
    (h : r.transcriptHistory = r.d2h ∧ r.conversationState = r.d2c) :
    runEffect2 r p = p := if_pos h

lemma runEffect3_skip (r p : ClientS) (ts : Nat)
    (h : r.transcriptsUser = r.d3u ∧ r.isUserSpeaking = r.d3s) :
    runEffect3 r p ts = p := if_pos h

lemma runEffect4_skip (r p : ClientS) (ts : Nat)
    (h : r.transcriptsBot = r.d4) : runEffect4 r p ts = p := if_pos h

lemma runEffect7_skip (r p : ClientS) (h : r.transport = r.d7) :
    runEffect7 r p = p := if_pos h

lemma runPass_consistent (s : ClientS) (ts : Nat) (h : Consistent s) :
    runPass s ts = s := by
  obtain ⟨h1, h2h, h2c, h3u, h3s, h4, h7, hp⟩ := h
  unfold runPass
  rw [runEffect1_skip _ _ h1.symm,
    runEffect2_skip _ _ ⟨h2h.symm, h2c.symm⟩,
    runEffect3_skip _ _ _ ⟨h3u.symm, h3s.symm⟩,
    runEffect4_skip _ _ _ h4.symm,
    runEffect7_skip _ _ h7.symm]

lemma stabilizeLoop_consistent (n : Nat) (s : ClientS) (ts : Nat)
    (h : Consistent s) : stabilizeLoop n s ts = s := by
  induction n with
  | zero => rfl
  | succ k ih => rw [stabilizeLoop, runPass_consistent s ts h, ih]

lemma stepEvent_fields (s : ClientS) (e : ClientEvent) (ts : Nat) :
    (stepEvent s e ts).courseState = (applyEvent s e).courseState ∧
    (stepEvent s e ts).transcriptsUser = (applyEvent s e).transcriptsUser ∧
    (stepEvent s e ts).transcriptsBot = (applyEvent s e).transcriptsBot ∧
    (stepEvent s e ts).isBotSpeaking = (applyEvent s e).isBotSpeaking ∧
    (stepEvent s e ts).streamingUserText =
      (applyEvent s e).streamingUserText ∧
    (stepEvent s e ts).streamingUserTextRef =
      (applyEvent s e).streamingUserTextRef ∧
    (stepEvent s e ts).isUserSpeaking = (applyEvent s e).isUserSpeaking ∧
    (stepEvent s e ts).transport = (applyEvent s e).transport := by
  have h := stepEvent_appView s e ts
  unfold appView at h
  simp only [Prod.mk.injEq] at h
  exact h

lemma stepEvent_courseState (s : ClientS) (e : ClientEvent) (ts : Nat) :
    (stepEvent s e ts).courseState = (applyEvent s e).courseState :=
  (stepEvent_fields s e ts).1

lemma stepEvent_transcriptsUser (s : ClientS) (e : ClientEvent) (ts : Nat) :
    (stepEvent s e ts).transcriptsUser = (applyEvent s e).transcriptsUser :=
  (stepEvent_fields s e ts).2.1

lemma stepEvent_streamingUserText (s : ClientS) (e : ClientEvent) (ts : Nat) :
    (stepEvent s e ts).streamingUserText = (applyEvent s e).streamingUserText :=
  (stepEvent_fields s e ts).2.2.2.2.1

lemma stepEvent_streamingUserTextRef (s : ClientS) (e : ClientEvent) (ts : Nat) :
    (stepEvent s e ts).streamingUserTextRef =
      (applyEvent s e).streamingUserTextRef :=
  (stepEvent_fields s e ts).2.2.2.2.2.1

lemma stepEvent_isUserSpeaking (s : ClientS) (e : ClientEvent) (ts : Nat) :
    (stepEvent s e ts).isUserSpeaking = (applyEvent s e).isUserSpeaking :=
  (stepEvent_fields s e ts).2.2.2.2.2.2.1

lemma applyEvent_courseState (s : ClientS) (e : ClientEvent) :
    (applyEvent s e).courseState =
      (match e with
       | ClientEvent.serverMessage p => decodeStateUpdate p
       | _ => s.courseState) := by
  cases e with
  | serverMessage p => rfl
  | userTranscriptEv t f =>
    show (handleUserTranscript s t f).courseState = s.courseState
    unfold handleUserTranscript
    cases t with
    | none => rfl
    | some t0 => dsimp only; split_ifs <;> rfl
  | botTtsTextEv t =>
    show (handleBotTtsText s t).courseState = s.courseState
    unfold handleBotTtsText
    cases t with
    | none => rfl
    | some t0 => dsimp only; split_ifs <;> rfl
  | speakingTimeoutEv =>
    show (safetyTimeoutFire s).courseState = s.courseState
    unfold safetyTimeoutFire
    split_ifs <;> rfl
  | _ => rfl

/-!
## Claim theorems
-/

/-- Claim C10: for every `user_transcript` event whose `text` field is
empty or absent, the handler leaves all store state unchanged — no
transcript is recorded and the streaming text and the user-speaking flag
keep their prior values — even when the event is marked final. Stated for
any quiescent client state and any `final` flag value: processing the
event is the identity. -/
theorem c10_empty_user_transcript_frame (s : ClientS) (f : Option Bool)
    (ts : Nat) (hc : Consistent s) :
    stepEvent s (.userTranscriptEv none f) ts = s ∧
    stepEvent s (.userTranscriptEv (some "") f) ts = s := by
  have h1 : applyEvent s (.userTranscriptEv none f) = s := rfl
  have h2 : applyEvent s (.userTranscriptEv (some "") f) = s := by
    show handleUserTranscript s (some "") f = s
    unfold handleUserTranscript
    dsimp only
    rw [if_pos rfl]
  constructor
  · unfold stepEvent
    rw [h1]
    exact stabilizeLoop_consistent _ _ _ hc
  · unfold stepEvent
    rw [h2]
    exact stabilizeLoop_consistent _ _ _ hc

/-- Witness for C10 at the initial client state. -/
theorem c10_empty_user_transcript_frame_witness :
    Consistent initClientS ∧
    stepEvent initClientS (.userTranscriptEv none (some true)) 0 =
      initClientS :=
  ⟨by decide,
    (c10_empty_user_transcript_frame initClientS (some true) 0 (by decide)).1⟩

/-- Claim C5: if the user-speaking state remains set continuously for the
bounded 5-second interval (`speakingTimeoutMs = 5000`) without a
finalization event, the safety-timeout fire synthesizes a final user
transcript from the last-seen partial text (when one exists), clears the
streaming utterance state, and sets the speaking flag to false. The timer
event is enabled exactly while the speaking flag is set. -/
theorem c5_safety_timeout (s : ClientS) (ts : Nat)
    (hs : s.isUserSpeaking = true) :
    (stepEvent s .speakingTimeoutEv ts).transcriptsUser =
      (if s.streamingUserTextRef ≠ "" then s.streamingUserTextRef
       else s.transcriptsUser) ∧
    (stepEvent s .speakingTimeoutEv ts).streamingUserText = "" ∧
    (stepEvent s .speakingTimeoutEv ts).streamingUserTextRef = "" ∧
    (stepEvent s .speakingTimeoutEv ts).isUserSpeaking = false ∧
    speakingTimeoutMs = 5000 := by
  rw [stepEvent_transcriptsUser, stepEvent_streamingUserText,
    stepEvent_streamingUserTextRef, stepEvent_isUserSpeaking]
  show (safetyTimeoutFire s).transcriptsUser = _ ∧
    (safetyTimeoutFire s).streamingUserText = "" ∧
    (safetyTimeoutFire s).streamingUserTextRef = "" ∧
    (safetyTimeoutFire s).isUserSpeaking = false ∧ speakingTimeoutMs = 5000
  unfold safetyTimeoutFire
  rw [if_pos hs]
  dsimp only
  refine ⟨?_, rfl, rfl, rfl, rfl⟩
  split_ifs with h
  · rfl
  · rfl

/-- Concrete stuck-speaking state used by the C5 witness. -/
def stuckSpeakingS : ClientS := { initClientS with
  isUserSpeaking := true
  streamingUserText := "hi"
  streamingUserTextRef := "hi" }

/-- Witness for C5 at a concrete stuck-speaking state. -/
theorem c5_safety_timeout_witness :
    stuckSpeakingS.isUserSpeaking = true ∧
    (stepEvent stuckSpeakingS .speakingTimeoutEv 7).isUserSpeaking = false :=
  ⟨rfl, (c5_safety_timeout stuckSpeakingS 7 rfl).2.2.2.1⟩

/-- Claim C2: over every event sequence from the initial client state, the
transcript history never contains two consecutive entries from the same
speaker with identical text; moreover, at the concrete level, an agent
transcript equal to the most recent agent entry is not appended again, a
final user transcript equal to the most recent user entry is not appended
again, and non-adjacent agent repeats are appended (texts "hello", "bye",
"hello" yield three entries; "hello" twice consecutively yields one). -/
theorem c2_history_adjacent_dedup :
    (∀ evs : List (ClientEvent × Nat),
      noAdjDup (runEvents initClientS evs).transcriptHistory = true) ∧
    (runEvents initClientS
      [(.botTtsTextEv (some "hello"), 1), (.botTtsTextEv (some "bye"), 2),
        (.botTtsTextEv (some "hello"), 3)]).transcriptHistory.map
      (fun m => m.text) = ["hello", "bye", "hello"] ∧
    (runEvents initClientS
      [(.botTtsTextEv (some "hello"), 1),
        (.botTtsTextEv (some "hello"), 2)]).transcriptHistory.map
      (fun m => m.text) = ["hello"] ∧
    (runEvents initClientS
      [(.userTranscriptEv (some "x") (some true), 1),
        (.userTranscriptEv (some "x") (some true), 2)]).transcriptHistory.map
      (fun m => m.text) = ["x"] := by
  refine ⟨fun evs => runEvents_noAdjDup evs initClientS rfl, ?_, ?_, ?_⟩
  · decide
  · decide
  · decide

/-- Claim C3: the derived interaction mode is a three-state machine driven
only by edges. A rising edge of user-speaking sets `listening` and a
falling edge sets `thinking` (from any render/pending state, via the edge
effect), an agent entry at the end of the history while `thinking` sets
`idle` (via the agent-append effect), and the exact event order
`user_speaking_started`, final `user_transcript`, `agent_transcript`
drives the stabilized mode idle → listening → thinking → idle. -/
theorem c3_interaction_mode_machine :
    (∀ r p : ClientS, p.prevIsUserSpeaking = false →
      r.isUserSpeaking = true →
      (effect1Body r p).conversationState = .listening) ∧
    (∀ r p : ClientS, p.prevIsUserSpeaking = true →
      r.isUserSpeaking = false →
      (effect1Body r p).conversationState = .thinking) ∧
    (∀ (r p : ClientS) (m : TranscriptMessage),
      r.conversationState = .thinking →
      r.transcriptHistory.getLast? = some m → m.speaker = .bot →
      (effect2Body r p).conversationState = .idle) ∧
    (initClientS.conversationState = .idle ∧
      (runEvents initClientS
        [(.userStartedSpeakingEv, 1)]).conversationState = .listening ∧
      (runEvents initClientS
        [(.userStartedSpeakingEv, 1),
          (.userTranscriptEv (some "x") (some true), 2)]).conversationState =
        .thinking ∧
      (runEvents initClientS
        [(.userStartedSpeakingEv, 1),
          (.userTranscriptEv (some "x") (some true), 2),
          (.botTtsTextEv (some "hello"), 3)]).conversationState = .idle) := by
  refine ⟨?_, ?_, ?_, by decide, by decide, by decide, by decide⟩
  · intro r p hp hr
    unfold effect1Body
    rw [if_pos ⟨hr, hp⟩]
  · intro r p hp hr
    unfold effect1Body
    rw [if_neg (fun hc => by rw [hr] at hc; exact absurd hc.1 (by simp)),
      if_pos ⟨hp, hr⟩]
  · intro r p m hconv hlast hspk
    unfold effect2Body
    have hne : r.transcriptHistory ≠ [] := by
      intro h0
      rw [h0] at hlast
      simp at hlast
    rw [if_pos ⟨hconv, List.length_pos.mpr hne⟩, hlast]
    dsimp only
    rw [if_pos hspk]

/-- Concrete state with a trailing bot entry, used by the C3 witness. -/
def thinkingWithBotS : ClientS := { initClientS with
  conversationState := .thinking
  transcriptHistory := [⟨Speaker.bot, "hi", 4⟩] }

/-- Witness for C3: the edge and agent-append rules applied at concrete
states. -/
theorem c3_interaction_mode_machine_witness :
    (effect1Body { initClientS with isUserSpeaking := true }
      initClientS).conversationState = .listening ∧
    (effect1Body initClientS
      { initClientS with prevIsUserSpeaking := true }).conversationState =
      .thinking ∧
    (effect2Body thinkingWithBotS initClientS).conversationState = .idle :=
  ⟨c3_interaction_mode_machine.1 _ _ rfl rfl,
    c3_interaction_mode_machine.2.1 _ _ rfl rfl,
    c3_interaction_mode_machine.2.2.1 _ _ ⟨Speaker.bot, "hi", 4⟩ rfl rfl rfl⟩

/-- The conversation-state subset invariant claimed by the spec:
discussed topics and response keys are contained in the topic catalog. -/
def courseInv (c : CourseState) : Prop :=
  (∀ t ∈ c.discussed_topics, t ∈ c.all_topics) ∧
  (∀ t ∈ c.responses.map Prod.fst, t ∈ c.all_topics)

instance (c : CourseState) : Decidable (courseInv c) := by
  unfold courseInv; infer_instance

/-- A `state_update` payload that itself satisfies the subset contract
(after JS defaulting). -/
def GoodPayload (p : StatePayload) : Prop :=
  (∀ t ∈ p.discussed_topics.getD [], t ∈ p.all_topics.getD []) ∧
  (∀ t ∈ (p.responses.getD []).map Prod.fst, t ∈ p.all_topics.getD [])

instance (p : StatePayload) : Decidable (GoodPayload p) := by
  unfold GoodPayload; infer_instance

/-- A payload whose `discussed_topics` lists a topic missing from
`all_topics`; the reducer copies it verbatim. -/
def badPayload : StatePayload :=
  { all_topics := some []
  , discussed_topics := some ["A"]
  , responses := none
  , remaining_topics := none
  , current_topics := none
  , current_node := none
  , progress := none }

/-- Counterexample to C4 as stated: the reducer performs no subset
filtering, so a single `state_update` whose payload lists a discussed
topic outside the (empty) catalog leaves the store with
`discussedTopics ⊄ allTopics`. -/
theorem c4_subset_counterexample :
    ¬ courseInv
      (stepEvent initClientS (.serverMessage badPayload) 0).courseState := by
  decide

/-- Claim C4 as amended: the reducer copies the payload fields verbatim,
so for every event sequence in which each `state_update` payload itself
satisfies the subset contract (discussed topics and response keys inside
the topic catalog, after JS defaulting), the store satisfies
`discussedTopics ⊆ allTopics` and `responses` keys `⊆ allTopics` after
each event (here: after any such sequence, hence after every prefix). -/
theorem c4_subset_invariant (evs : List (ClientEvent × Nat))
    (hg : ∀ e ∈ evs, ∀ p, e.1 = ClientEvent.serverMessage p →
      GoodPayload p) :
    courseInv (runEvents initClientS evs).courseState := by
  have main : ∀ (l : List (ClientEvent × Nat)) (s : ClientS),
      courseInv s.courseState →
      (∀ e ∈ l, ∀ p, e.1 = ClientEvent.serverMessage p → GoodPayload p) →
      courseInv (runEvents s l).courseState := by
    intro l
    induction l with
    | nil => intro s hc _; exact hc
    | cons e rest ih =>
      intro s hc hgl
      simp only [runEvents]
      apply ih
      · rw [stepEvent_courseState, applyEvent_courseState]
        cases he : e.1 with
        | serverMessage p =>
          have hgp := hgl e (List.mem_cons_self e rest) p he
          exact ⟨hgp.1, hgp.2⟩
        | userTranscriptEv t f => exact hc
        | botTtsTextEv t => exact hc
        | botStartedSpeakingEv => exact hc
        | botStoppedSpeakingEv => exact hc
        | userStartedSpeakingEv => exact hc
        | connectedEv => exact hc
        | disconnectedEv => exact hc
        | speakingTimeoutEv => exact hc
        | transportChangeEv t => exact hc
      · intro e2 he2
        exact hgl e2 (List.mem_cons_of_mem _ he2)
  exact main evs initClientS ⟨by simp [initClientS, initialCourseState],
    by simp [initClientS, initialCourseState]⟩ hg

/-- A subset-respecting payload used by the C4 witness. -/
def goodPayload : StatePayload :=
  { all_topics := some ["A", "B"]
  , discussed_topics := some ["A"]
  , responses := some [("A", true)]
  , remaining_topics := some ["B"]
  , current_topics := some ["B"]
  , current_node := some "questions"
  , progress := some "1/3" }

/-- Witness for the amended C4 on a concrete two-event sequence. -/
theorem c4_subset_invariant_witness :
    courseInv (runEvents initClientS
      [(ClientEvent.serverMessage goodPayload, 1),
        (ClientEvent.botTtsTextEv (some "hi"), 2)]).courseState := by
  apply c4_subset_invariant
  intro e he p hp
  simp only [List.mem_cons, List.not_mem_nil, or_false] at he
  rcases he with he | he <;> subst he
  · simp only at hp
    injection hp with h
    subst h
    decide
  · simp only at hp
    exact absurd hp (by simp)

/-- The all-absent `state_update` payload. -/
def emptyPayload : StatePayload :=
  { all_topics := none
  , discussed_topics := none
  , responses := none
  , remaining_topics := none
  , current_topics := none
  , current_node := none
  , progress := none }

/-- Counterexample to C6 as stated: for a payload with a missing
`progress` field the reducer falls back to `"0/3"`, not to the empty
string claimed by the spec. -/
theorem c6_progress_default_counterexample :
    (stepEvent initClientS (.serverMessage emptyPayload)
        0).courseState.progress = "0/3" ∧
    (stepEvent initClientS (.serverMessage emptyPayload)
        0).courseState.progress ≠ "" := by
  decide

/-- Claim C6 as amended: on every inbound `state_update` event the store
replaces the conversation state wholesale from the decoded payload
(regardless of the prior state — the event is never rejected), and an
all-missing payload decodes to the safe defaults: empty sequences for the
topic lists, empty mapping for responses, "initial" for the current node,
and "0/3" (not the empty string) for progress. -/
theorem c6_state_update_defaults (s : ClientS) (p : StatePayload)
    (ts : Nat) :
    (stepEvent s (.serverMessage p) ts).courseState =
      decodeStateUpdate p ∧
    decodeStateUpdate emptyPayload =
      { all_topics := []
      , discussed_topics := []
      , responses := []
      , remaining_topics := []
      , current_topics := []
      , current_node := "initial"
      , progress := "0/3" } := by
  constructor
  · rw [stepEvent_courseState]
    rfl
  · rfl

/-- Transport oracle of a connect attempt that fails leaving the
transport `ready`, with succeeding disconnects. -/
def readyFailOracle : ConnectOracle :=
  { disconnect1Ok := true
  , startBotOk := false
  , stateAfterStartBot := .ready
  , disconnect2Ok := true }

/-- Counterexample to C7 as stated: when the connect attempt fails with
the transport left `ready`, `handleConnect` does force a disconnect and
the state does settle to `disconnected`, but the promise resolves
normally (`false` in the rejection slot) — the outer catch swallows the
failure instead of surfacing it to the caller. -/
theorem c7_connect_failure_counterexample :
    (handleConnect .disconnected readyFailOracle).1 =
      [ConnectAction.resetTranscripts, ConnectAction.startBotCall,
        ConnectAction.disconnectCall] ∧
    (handleConnect .disconnected readyFailOracle).2.1 = .disconnected ∧
    (handleConnect .disconnected readyFailOracle).2.2 = false := by
  decide

/-- Claim C7 as amended: when a connect attempt fails and the transport
ended in `ready` or `connecting`, `handleConnect` forces a disconnect (the
last performed action is a disconnect call) and, when that disconnect
succeeds, the channel state settles to `disconnected`; the failure itself
is swallowed (logged) rather than surfaced — the call never rejects. -/
theorem c7_connect_failure_recovery (st0 : TransportState)
    (o : ConnectOracle) (hf : o.startBotOk = false)
    (hs : o.stateAfterStartBot = .ready ∨
      o.stateAfterStartBot = .connecting) :
    (handleConnect st0 o).1.getLast? = some ConnectAction.disconnectCall ∧
    (o.disconnect2Ok = true →
      (handleConnect st0 o).2.1 = .disconnected) ∧
    (handleConnect st0 o).2.2 = false := by
  unfold handleConnect
  rw [hf]
  simp only [Bool.false_eq_true, if_false, if_pos hs]
  refine ⟨?_, ?_, trivial⟩
  · exact List.getLast?_concat _
  · intro h2
    unfold disconnectEffect
    rw [h2]
    simp

/-- Witness for the amended C7: a failed reconnect from `ready` that ends
`connecting`. -/
theorem c7_connect_failure_recovery_witness :
    readyFailOracle.startBotOk = false ∧
    (readyFailOracle.stateAfterStartBot = TransportState.ready ∨
      readyFailOracle.stateAfterStartBot = TransportState.connecting) ∧
    (handleConnect .ready readyFailOracle).1.getLast? =
      some ConnectAction.disconnectCall ∧
    (handleConnect .ready readyFailOracle).2.2 = false := by
  have h := c7_connect_failure_recovery .ready readyFailOracle rfl
    (Or.inl rfl)
  exact ⟨rfl, Or.inl rfl, h.1, h.2.2⟩

/-- Counterexample to C8 as stated: the trace user-starts-speaking,
disconnect, transport-ready leaves the derived interaction mode at
`thinking` (not reset to `idle`) while the transport has just transitioned
to `ready`; the history is cleared but the mode persists across the
reconnect. -/
theorem c8_mode_not_reset_counterexample :
    (runEvents initClientS
      [(.userStartedSpeakingEv, 1), (.disconnectedEv, 2),
        (.transportChangeEv .ready, 3)]).transport = .ready ∧
    (runEvents initClientS
      [(.userStartedSpeakingEv, 1), (.disconnectedEv, 2),
        (.transportChangeEv .ready, 3)]).conversationState = .thinking ∧
    (runEvents initClientS
      [(.userStartedSpeakingEv, 1), (.disconnectedEv, 2),
        (.transportChangeEv .ready, 3)]).conversationState ≠ .idle := by
  refine ⟨by decide, by decide, by decide⟩

/-- Claim C8 as amended: on every transition of the channel into the
`ready` state, the transcript history and the TTS dedup ref are reset, but
the derived interaction mode is NOT reset — it keeps its previous value
across the reconnect (it only ever changes through the speaking edges and
the agent-append rule). -/
lemma runPass_ready_transition (u : ClientS) (ts : Nat)
    (h1 : u.d1 = u.isUserSpeaking) (h2h : u.d2h = u.transcriptHistory)
    (h2c : u.d2c = u.conversationState) (h3u : u.d3u = u.transcriptsUser)
    (h3s : u.d3s = u.isUserSpeaking) (h4 : u.d4 = u.transcriptsBot)
    (h7 : u.d7 ≠ u.transport) (htr : u.transport = .ready) :
    runPass u ts = { u with
      transcriptHistory := []
      lastProcessedTts := ""
      d7 := u.transport } := by
  unfold runPass
  rw [runEffect1_skip u _ h1.symm,
    runEffect2_skip u _ ⟨h2h.symm, h2c.symm⟩,
    runEffect3_skip u _ _ ⟨h3u.symm, h3s.symm⟩,
    runEffect4_skip u _ _ h4.symm]
  unfold runEffect7
  rw [if_neg (fun he => h7 he.symm)]
  unfold effect7Body
  rw [if_pos htr]

lemma runPass_history_snapshot_catchup (u : ClientS) (ts : Nat)
    (h1 : u.d1 = u.isUserSpeaking)
    (hne : ¬(u.transcriptHistory = u.d2h ∧
      u.conversationState = u.d2c))
    (hh : u.transcriptHistory = []) (h3u : u.d3u = u.transcriptsUser)
    (h3s : u.d3s = u.isUserSpeaking) (h4 : u.d4 = u.transcriptsBot)
    (h7 : u.d7 = u.transport) :
    runPass u ts = { u with
      d2h := u.transcriptHistory
      d2c := u.conversationState } := by
  unfold runPass
  rw [runEffect1_skip u _ h1.symm]
  unfold runEffect2
  rw [if_neg hne]
  unfold effect2Body
  rw [if_neg (fun hq => by
    rw [hh] at hq
    exact Nat.lt_irrefl 0 hq.2)]
  rw [runEffect3_skip _ _ _ ⟨h3u.symm, h3s.symm⟩,
    runEffect4_skip _ _ _ h4.symm,
    runEffect7_skip _ _ h7.symm]

theorem c8_ready_resets_history_not_mode (s : ClientS) (ts : Nat)
    (hc : Consistent s) (hr : s.transport ≠ .ready) :
    (stepEvent s (.transportChangeEv .ready) ts).transcriptHistory = [] ∧
    (stepEvent s (.transportChangeEv .ready) ts).lastProcessedTts = "" ∧
    (stepEvent s (.transportChangeEv .ready) ts).conversationState =
      s.conversationState ∧
    (stepEvent s (.transportChangeEv .ready) ts).transport = .ready := by
  obtain ⟨h1, h2h, h2c, h3u, h3s, h4, h7, hp⟩ := hc
  have key : stepEvent s (.transportChangeEv .ready) ts =
      stabilizeLoop 7 (runPass { s with transport := .ready } ts) ts := rfl
  have hr1 := runPass_ready_transition { s with transport := .ready } ts
    h1 h2h h2c h3u h3s h4 (fun he => hr (h7.symm.trans he)) rfl
  rw [key, hr1]
  by_cases hh0 : s.transcriptHistory = []
  · have hcons : Consistent { ({ s with transport := .ready } : ClientS) with
        transcriptHistory := []
        lastProcessedTts := ""
        d7 := ({ s with transport := .ready } : ClientS).transport } :=
      ⟨h1, h2h.trans hh0, h2c, h3u, h3s, h4, rfl, hp⟩
    rw [stabilizeLoop_consistent _ _ _ hcons]
    exact ⟨rfl, rfl, rfl, rfl⟩
  · have key7 : stabilizeLoop 7
        ({ ({ s with transport := .ready } : ClientS) with
          transcriptHistory := []
          lastProcessedTts := ""
          d7 := ({ s with transport := .ready } : ClientS).transport } :
            ClientS) ts =
        stabilizeLoop 6 (runPass
          { ({ s with transport := .ready } : ClientS) with
            transcriptHistory := []
            lastProcessedTts := ""
            d7 := ({ s with transport := .ready } : ClientS).transport }
          ts) ts := rfl
    have hr2 := runPass_history_snapshot_catchup
      { ({ s with transport := .ready } : ClientS) with
        transcriptHistory := []
        lastProcessedTts := ""
        d7 := ({ s with transport := .ready } : ClientS).transport } ts
      h1 (fun he => hh0 ((he.1.trans h2h).symm)) rfl h3u h3s h4 rfl
    rw [key7, hr2]
    have hcons3 : Consistent
        { ({ ({ s with transport := .ready } : ClientS) with
            transcriptHistory := []
            lastProcessedTts := ""
            d7 := ({ s with transport := .ready } :
              ClientS).transport } : ClientS) with
          d2h := ([] : List TranscriptMessage)
          d2c := s.conversationState } :=
      ⟨h1, rfl, rfl, h3u, h3s, h4, rfl, hp⟩
    rw [stabilizeLoop_consistent _ _ _ hcons3]
    exact ⟨rfl, rfl, rfl, rfl⟩

/-- Witness for the amended C8 at the initial (disconnected) state. -/
theorem c8_ready_resets_history_not_mode_witness :
    Consistent initClientS ∧ initClientS.transport ≠ .ready ∧
    (stepEvent initClientS (.transportChangeEv .ready)
        0).transcriptHistory = [] ∧
    (stepEvent initClientS (.transportChangeEv .ready)
        0).conversationState = initClientS.conversationState := by
  have h := c8_ready_resets_history_not_mode initClientS 0 (by decide)
    (by decide)
  exact ⟨by decide, by decide, h.1, h.2.2.1⟩

lemma micRun_stopped (evs : List MicEv) :
    ∀ a : MicAnalyzer, a.pendingStream = false → a.loopScheduled = false →
      (micRun a evs).mutationsAfterDispose = a.mutationsAfterDispose := by
  induction evs with
  | nil => intro a _ _; rfl
  | cons e rest ih =>
    intro a hp hl
    cases e with
    | resolveStream =>
      simp only [micRun, micStep, hp, Bool.false_eq_true, if_false]
      exact ih a hp hl
    | frame =>
      simp only [micRun, micStep, hl, Bool.false_eq_true, if_false]
      exact ih a hp hl
    | dispose =>
      simp only [micRun, micStep]
      exact ih _ hp rfl

lemma botRun_stopped (evs : List BotEv) :
    ∀ a : BotAnalyzer, a.loopScheduled = false →
      (botRun a evs).mutationsAfterDispose = a.mutationsAfterDispose := by
  induction evs with
  | nil => intro a _; rfl
  | cons e rest ih =>
    intro a hl
    cases e with
    | frame =>
      simp only [botRun, botStep, hl, Bool.false_eq_true, if_false]
      exact ih a hl
    | dispose =>
      simp only [botRun, botStep]
      exact ih _ rfl

/-- Claim C9 (code bug): disposal is supposed to stop all further bar
mutations at whatever moment in the analyzer lifecycle it happens. This
holds for the bot analyzer (fully synchronous: after its cleanup no event
sequence produces another mutation) and for the mic analyzer whenever the
`getUserMedia` promise has already resolved; but if the mic effect is
cleaned up while the stream request is still in flight, the promise
callback still starts the animation loop and bar mutations continue after
disposal (two post-disposal mutations already after resolve plus one
frame). -/
theorem c9_disposal_stops_mutations :
    (micRun micStart
      [MicEv.dispose, MicEv.resolveStream, MicEv.frame]).mutationsAfterDispose
      = 2 ∧
    (∀ (a : BotAnalyzer) (evs : List BotEv),
      (botRun (botStep a BotEv.dispose) evs).mutationsAfterDispose =
        (botStep a BotEv.dispose).mutationsAfterDispose) ∧
    (∀ (a : MicAnalyzer) (evs : List MicEv), a.pendingStream = false →
      (micRun (micStep a MicEv.dispose) evs).mutationsAfterDispose =
        (micStep a MicEv.dispose).mutationsAfterDispose) := by
  refine ⟨by decide, ?_, ?_⟩
  · intro a evs
    exact botRun_stopped evs _ rfl
  · intro a evs hp
    exact micRun_stopped evs _ hp rfl

/-- Witness for C9: the stopped-analyzer parts applied at concrete
post-resolution states. -/
theorem c9_disposal_stops_mutations_witness :
    ({ micStart with pendingStream := false } : MicAnalyzer).pendingStream =
      false ∧
    (micRun (micStep { micStart with pendingStream := false }
        MicEv.dispose) [MicEv.frame, MicEv.frame]).mutationsAfterDispose =
      (micStep { micStart with pendingStream := false }
        MicEv.dispose).mutationsAfterDispose :=
  ⟨rfl, c9_disposal_stops_mutations.2.2
    { micStart with pendingStream := false } [MicEv.frame, MicEv.frame] rfl⟩

lemma computeBars_getD (data : List Nat) (i : Fin 32) :
    (AudioBars.computeBars data).getD i 0 = AudioBars.barValue data i := by
  have hi : (i : Nat) < 32 := i.isLt
  rw [AudioBars.computeBars, AudioBars.numBars, List.getD_eq_getElem?_getD,
    List.getElem?_map, List.getElem?_range hi]
  rfl

lemma barValue_silence (i : Nat) (hi : i < 32) :
    AudioBars.barValue (List.replicate 256 128) i = 5 := by
  have hseg : AudioBars.segmentSize (List.replicate 256 128) = 8 := by
    rw [AudioBars.segmentSize, List.length_replicate]
  have hzero : ∀ j ∈ Finset.range 8,
      AudioBars.sampleVal (List.replicate 256 128) (i * 8 + j) ^ 2 = 0 := by
    intro j hj
    simp only [Finset.mem_range] at hj
    have hidx : i * 8 + j < 256 := by omega
    rw [AudioBars.sampleVal, List.getD_eq_getElem?_getD,
      List.getElem?_replicate, if_pos hidx]
    norm_num
  have hsum : AudioBars.segmentSumSq (List.replicate 256 128) i = 0 := by
    rw [AudioBars.segmentSumSq, hseg]
    exact Finset.sum_eq_zero hzero
  have hrms : AudioBars.segmentRms (List.replicate 256 128) i = 0 := by
    rw [AudioBars.segmentRms, hsum, hseg]
    simp
  rw [AudioBars.barValue, hrms]
  norm_num

/-- Claim C1: for every 256-byte sample window read on an animation tick,
the audio analysis produces exactly 32 bar values; bar `i` equals the
clamp into `[5, 95]` of `400` times the root mean square of the centered
normalized samples `(s - 128) / 128` over the `i`-th contiguous segment of
length `⌊256 / 32⌋ = 8`; and for the all-silence window (every sample at
the zero-point `128`) every bar equals `5`. -/
theorem c1_energy_frame (data : List Nat) (h : data.length = 256) :
    (AudioBars.computeBars data).length = 32 ∧
    (∀ i : Fin 32, (AudioBars.computeBars data).getD i 0 =
      max 5 (min 95 (400 * Real.sqrt
        ((∑ j in Finset.range 8,
          ((((data.getD ((i : Nat) * 8 + j) 0 : Nat) : ℝ) - 128) / 128)
            ^ 2) / 8)))) ∧
    AudioBars.computeBars (List.replicate 256 128) = List.replicate 32 5 := by
  have h8 : AudioBars.segmentSize data = 8 := by
    rw [AudioBars.segmentSize, h]
  refine ⟨by rw [AudioBars.computeBars, AudioBars.numBars, List.length_map,
    List.length_range], ?_, ?_⟩
  · intro i
    rw [computeBars_getD, AudioBars.barValue, AudioBars.segmentRms,
      AudioBars.segmentSumSq, h8]
    unfold AudioBars.sampleVal
    rw [mul_comm (Real.sqrt _) 400]
    norm_num [sq_abs]
  · refine List.eq_replicate_iff.mpr
      ⟨by rw [AudioBars.computeBars, AudioBars.numBars, List.length_map,
        List.length_range], ?_⟩
    intro b hb
    rw [AudioBars.computeBars, AudioBars.numBars] at hb
    obtain ⟨i, hi, rfl⟩ := List.mem_map.mp hb
    exact barValue_silence i (List.mem_range.mp hi)

/-- Witness for C1 at the all-silence 256-byte window. -/
theorem c1_energy_frame_witness :
    (List.replicate 256 128 : List Nat).length = 256 ∧
    (AudioBars.computeBars (List.replicate 256 128)).length = 32 :=
  ⟨List.length_replicate 256 128,
    (c1_energy_frame (List.replicate 256 128)
      (List.length_replicate 256 128)).1⟩
